import Mathlib

/-
Verification of the client-side document-processing core of the
Insurance_pdf_extractor front-end.

The embedded code lives in
  src/frontend/document-insight-engine-main/src/hooks/useDocumentProcessor.ts
  src/frontend/document-insight-engine-main/src/components/MergeJsonButton.tsx
  src/unnamed/part_002 (the shared type declarations: ProcessingStage,
  ExtractionResult, DocumentMetadata, DocumentFile).

Modelling conventions:
- JavaScript numbers are modelled as exact rationals (for the backend's
  0-1 confidence value) and integers (for counts); NaN is outside the model.
- A JavaScript value that may be `undefined`/`null` is an `Option`.
- JS truthiness on strings is `s ≠ ""`, on numbers `n ≠ 0`; objects and
  non-empty arrays are always truthy, which is why `Option` alone models
  the `||` fallbacks applied to objects.
- A thrown JS exception is the `Except.error` branch carrying the
  exception's `message` string.  The exact text of an engine-generated
  TypeError message is implementation-defined; we use a fixed rendering.
- `Math.round x` is `⌊x + 1/2⌋` (JS rounds half-way cases toward +∞).
-/

namespace Insurance

/-- The fixed stage enumeration of a document (src/unnamed/part_002,
`ProcessingStage`). -/
inductive ProcessingStage where
  | queued
  | rotation_check
  | text_extraction
  | schema_extraction
  | policy_detection
  | claim_extraction
  | validation
  | complete
  | error
deriving DecidableEq

/-- One extracted claim object: an ordered association list from field name
to the JS string conversion of the field value (insertion order of a JS
object's string keys is preserved, and object keys are unique). -/
abbrev Claim := List (String × String)

/-- The backend's `extracted_schema` object: a `claims` array (possibly
absent) plus arbitrary further fields (src/unnamed/part_002,
`ExtractionResult`). -/
structure ExtractionResult where
  claims : Option (List Claim)
  extraFields : List (String × String)
deriving DecidableEq

/-- The backend's optional `extraction_metadata` object. -/
structure ExtractionMetadata where
  source_file : Option String
  method : Option String
deriving DecidableEq

/-- The backend's optional `summary` object.  `avg_confidence` is a number
in [0,1], `claims_count` an integer count. -/
structure Summary where
  avg_confidence : Option ℚ
  claims_count : Option ℤ
deriving DecidableEq

/-- The backend's `data` payload. -/
structure BackendData where
  extracted_schema : Option ExtractionResult
  extraction_metadata : Option ExtractionMetadata
  summary : Option Summary
deriving DecidableEq

/-- A parsed JSON response body: `{ success, error?, data? }`.  An absent
or falsy `success` field is `false`. -/
structure JsonBody where
  success : Bool
  error : Option String
  data : Option BackendData
deriving DecidableEq

/-- Everything the `fetch("/api/extract-full")` round trip can produce, as
observed by `processDocument` (useDocumentProcessor.ts lines 80-95):
the fetch promise rejects; the response is non-2xx (`!response.ok`, with
its `statusText`); `response.json()` rejects; or a parsed JSON body. -/
inductive FetchOutcome where
  | networkFailure (message : String)
  | httpFailure (statusText : String)
  | jsonParseFailure (message : String)
  | jsonOk (body : JsonBody)
deriving DecidableEq

/-- The UI summary metadata derived on success (src/unnamed/part_002,
`DocumentMetadata`). -/
structure DocumentMetadata where
  insurer : String
  format : String
  confidence : ℤ
  claims_count : ℤ
deriving DecidableEq

/-- A thrown JS exception, reduced to its `message` string (every value
thrown on the modelled paths is an `Error`). -/
structure JsError where
  message : String
deriving DecidableEq

/-- JS `x || dflt` for an optionally-present string `x`: the fallback is
taken when `x` is absent OR empty (empty strings are falsy). -/
def jsStrOr (o : Option String) (dflt : String) : String :=
  match o with
  | some s => if s = "" then dflt else s
  | none => dflt

/-- JS truthiness of an optionally-present integer: absent and 0 are falsy. -/
def jsTruthyInt (o : Option ℤ) : Bool :=
  match o with
  | some n => n != 0
  | none => false

/-- JS `Math.round (q * 100)` computed on exact rationals:
`⌊q * 100 + 1/2⌋`, written over the numerator/denominator so that the
kernel can evaluate it (see `jsRound100_eq_floor`). -/
def jsRound100 (q : ℚ) : ℤ := Rat.floor (mkRat (q.num * 200 + q.den) (2 * q.den))

/-- Rendering of the engine-generated TypeError raised by reading a
property of `undefined`; the precise text is implementation-defined. -/
def typeErrorMessage (fieldName : String) : String :=
  "TypeError: Cannot read properties of undefined (reading " ++ fieldName ++ ")"

/-- The `confidence` metadata field (useDocumentProcessor.ts line 104):
`summary?.avg_confidence ? Math.round(avg * 100) : 95` — the ternary takes
the 95 default when the field is absent or (falsy) zero. -/
def confidenceValue (o : Option ℚ) : ℤ :=
  match o with
  | some q => if q.num != 0 then jsRound100 q else 95
  | none => 95

/-- Reading `schema.claims.length` (useDocumentProcessor.ts line 105):
throws a TypeError when `claims` is absent. -/
def schemaClaimsLength (schema : ExtractionResult) : Except JsError ℤ :=
  match schema.claims with
  | some cs => .ok (cs.length : ℤ)
  | none => .error ⟨typeErrorMessage "length"⟩

/-- The `claims_count` metadata field (useDocumentProcessor.ts line 105):
`summary?.claims_count || schema.claims.length` — the (possibly throwing)
right-hand side is evaluated only when the left is absent or zero. -/
def claimsCountValue (o : Option ℤ) (schema : ExtractionResult) : Except JsError ℤ :=
  match o with
  | some n => if n != 0 then .ok n else schemaClaimsLength schema
  | none => schemaClaimsLength schema

/-- The metadata object literal (useDocumentProcessor.ts lines 101-106),
which can throw while computing `claims_count`. -/
def computeMetadata (d : BackendData) (schema : ExtractionResult) :
    Except JsError DocumentMetadata :=
  match claimsCountValue (Option.bind d.summary Summary.claims_count) schema with
  | .ok cc =>
      .ok ⟨jsStrOr (Option.bind d.extraction_metadata ExtractionMetadata.source_file) "Unknown",
           jsStrOr (Option.bind d.extraction_metadata ExtractionMetadata.method) "standard",
           confidenceValue (Option.bind d.summary Summary.avg_confidence),
           cc⟩
  | .error e => .error e

/-- The `try` block of `processDocument` after the fetch settles
(useDocumentProcessor.ts lines 88-106): non-2xx responses throw
`Server error: <statusText>`; a falsy `success` flag throws
`json.error || "Unknown backend error"`; an absent `data` makes the read
of `extracted_schema` throw; otherwise the schema defaults to
`{ claims: [] }` when absent and the metadata is computed. -/
def extractBody (o : FetchOutcome) : Except JsError (ExtractionResult × DocumentMetadata) :=
  match o with
  | .networkFailure msg => .error ⟨msg⟩
  | .httpFailure statusText => .error ⟨"Server error: " ++ statusText⟩
  | .jsonParseFailure msg => .error ⟨msg⟩
  | .jsonOk body =>
      if body.success then
        match body.data with
        | none => .error ⟨typeErrorMessage "extracted_schema"⟩
        | some d =>
            match computeMetadata d (d.extracted_schema.getD ⟨some [], []⟩) with
            | .ok m => .ok (d.extracted_schema.getD ⟨some [], []⟩, m)
            | .error e => .error e
      else .error ⟨jsStrOr body.error "Unknown backend error"⟩

/-- The final registry update authored by one `processDocument` run
(useDocumentProcessor.ts lines 108-116 on success, 117-125 on failure):
the fields of the single terminal `updateDoc` call. -/
structure DocUpdate where
  stage : ProcessingStage
  stageMessage : String
  result : Option ExtractionResult
  metadata : Option DocumentMetadata
  error : Option String
deriving DecidableEq

/-- The terminal outcome of `processDocument` for a given fetch outcome:
the success write (stage `complete`, verbatim schema result, metadata) or
the catch-block write (stage `error`, message, no result). -/
def processDocument (o : FetchOutcome) : DocUpdate :=
  match extractBody o with
  | .ok sm => ⟨.complete, "✓ Extraction complete", some sm.fst, some sm.snd, none⟩
  | .error e => ⟨.error, "Error", none, none, some e.message⟩

theorem jsRound100_eq_floor (q : ℚ) : jsRound100 q = Int.floor (q * 100 + 1 / 2) := by
  have hd : ((q.den : ℚ)) ≠ 0 := by
    exact_mod_cast q.den_nz
  rw [jsRound100, Rat.floor_def', ← Rat.floor_def, Rat.mkRat_eq_div]
  congr 1
  push_cast
  rw [div_eq_iff (by positivity)]
  have hq : (q.num : ℚ) = q * q.den := by
    rw [mul_comm]
    exact_mod_cast (Rat.den_mul_eq_num q).symm
  rw [hq]
  ring

/-- One registry record (src/unnamed/part_002, `DocumentFile`), without
the opaque browser `File` handle. -/
structure DocumentFile where
  id : String
  name : String
  size : Nat
  stage : ProcessingStage
  stageMessage : String
  progress : Nat
  result : Option ExtractionResult
  metadata : Option DocumentMetadata
  error : Option String
  startedAt : Option Nat
  completedAt : Option Nat
deriving DecidableEq

/-- A `Partial<DocumentFile>` updates object: each field is `some v` when
the update carries it and `none` when it is absent and thus left alone by
the spread `{ ...d, ...updates }`. -/
structure DocumentFileUpdates where
  id : Option String
  name : Option String
  size : Option Nat
  stage : Option ProcessingStage
  stageMessage : Option String
  progress : Option Nat
  result : Option (Option ExtractionResult)
  metadata : Option (Option DocumentMetadata)
  error : Option (Option String)
  startedAt : Option (Option Nat)
  completedAt : Option (Option Nat)
deriving DecidableEq

/-- The spread merge `{ ...d, ...updates }` (useDocumentProcessor.ts
line 49). -/
def applyUpdates (d : DocumentFile) (u : DocumentFileUpdates) : DocumentFile :=
  ⟨u.id.getD d.id, u.name.getD d.name, u.size.getD d.size, u.stage.getD d.stage,
   u.stageMessage.getD d.stageMessage, u.progress.getD d.progress,
   u.result.getD d.result, u.metadata.getD d.metadata, u.error.getD d.error,
   u.startedAt.getD d.startedAt, u.completedAt.getD d.completedAt⟩

/-- The registry update operation (useDocumentProcessor.ts lines 47-51):
`prev.map (d => d.id === id ? { ...d, ...updates } : d)`. -/
def updateDoc (docs : List DocumentFile) (id : String) (u : DocumentFileUpdates) :
    List DocumentFile :=
  docs.map (fun d => if d.id = id then applyUpdates d u else d)

/-- Input to `addFiles` for one browser file: its name and size. -/
structure FileInput where
  name : String
  size : Nat
deriving DecidableEq

/-- The identifier template of `addFiles` (useDocumentProcessor.ts
line 150): `Date.now() + "-" + Math.random().toString(36).slice(2, 8)`. -/
def mkDocId (now : Nat) (rand : String) : String :=
  toString now ++ "-" ++ rand

/-- The fresh record built by `addFiles` for one file
(useDocumentProcessor.ts lines 149-161), given the `Date.now()` value and
random suffix sampled for it. -/
def newDoc (now : Nat) (rand : String) (f : FileInput) : DocumentFile :=
  ⟨mkDocId now rand, f.name, f.size, .queued, "Waiting in queue...", 0,
   none, none, none, none, none⟩

/-- The registry effect of `addFiles` (useDocumentProcessor.ts lines
147-163): `seeds` supplies, per file, the `Date.now()` reading and the
`Math.random()` suffix drawn while mapping over the batch. -/
def addFiles (seeds : List (Nat × String)) (files : List FileInput)
    (prev : List DocumentFile) : List DocumentFile :=
  prev ++ (seeds.zip files).map (fun p => newDoc p.fst.fst p.fst.snd p.snd)

/-- The completed-document filter of `MergeJsonButton`
(MergeJsonButton.tsx line 10):
`documents.filter(d => d.stage === "complete" && d.result)`
(a present result object is always truthy). -/
def completedDocs (docs : List DocumentFile) : List DocumentFile :=
  docs.filter (fun d => d.stage == ProcessingStage.complete && d.result.isSome)

/-- The claims contributed by one document to a merge
(MergeJsonButton.tsx line 15): `d.result?.claims || []`; note that an
empty claims array is truthy in JS, so only an absent one falls back. -/
def docClaims (d : DocumentFile) : List Claim :=
  (Option.bind d.result ExtractionResult.claims).getD []

/-- `getAllClaims` (MergeJsonButton.tsx lines 14-16). -/
def getAllClaims (docs : List DocumentFile) : List Claim :=
  (completedDocs docs).flatMap docClaims

/-- The merged-JSON payload the component can produce: `none` when the
component renders nothing (fewer than two completed documents,
MergeJsonButton.tsx line 12), else the claims array serialized by
`handleDownloadJson`. -/
def mergeJsonOutput (docs : List DocumentFile) : Option (List Claim) :=
  if (completedDocs docs).length < 2 then none
  else some (getAllClaims docs)

/-- Insertion-ordered deduplication, the semantics of
`Array.from(new Set(xs))` (a JS `Set` keeps first insertions in order). -/
def jsSetDedup (seen : List String) : List String → List String
  | [] => []
  | k :: ks => if k ∈ seen then jsSetDedup seen ks else k :: jsSetDedup (k :: seen) ks

/-- The CSV header key set (MergeJsonButton.tsx line 34):
`Array.from(new Set(claims.flatMap(c => Object.keys(c))))`. -/
def csvHeaders (claims : List Claim) : List String :=
  jsSetDedup [] (claims.flatMap (fun c => c.map Prod.fst))

/-- The global regex replace `.replace(/"/g, appending a doubled quote)`
(MergeJsonButton.tsx line 41). -/
def escapeQuotes (v : String) : String :=
  String.mk (v.data.flatMap (fun c => if c = '"' then ['"', '"'] else [c]))

/-- One CSV cell (MergeJsonButton.tsx lines 40-42): look the header up in
the row, default a missing value to the empty string, escape embedded
quotes by doubling, and wrap in double quotes. -/
def csvField (c : Claim) (header : String) : String :=
  "\"" ++ escapeQuotes ((c.lookup header).getD "") ++ "\""

/-- One CSV data row (MergeJsonButton.tsx lines 38-44). -/
def csvRow (headers : List String) (c : Claim) : String :=
  String.intercalate "," (headers.map (csvField c))

/-- The CSV text produced by `handleDownloadCsv` (MergeJsonButton.tsx
lines 29-47) from a claims list: `none` when the early return for an
empty claims list fires, else header line and data rows joined by
newlines. -/
def handleDownloadCsv (claims : List Claim) : Option String :=
  if claims = [] then none
  else some (String.intercalate "\n"
    (String.intercalate "," (csvHeaders claims) :: claims.map (csvRow (csvHeaders claims))))

/-- The updates object of one simulator write (useDocumentProcessor.ts
lines 64-67): only `stage` and `stageMessage`. -/
def stageUpdate (st : ProcessingStage) (msg : String) : DocumentFileUpdates :=
  ⟨none, none, none, some st, some msg, none, none, none, none, none, none⟩

/-- Events touching one document while `processDocument` runs, as
interleaved by the single-threaded event loop:
- `simTick` is one iteration of the `runSimulation` loop
  (useDocumentProcessor.ts lines 60-72), which checks
  `isSimulationRunning` before writing the scripted stage/message;
- `stopSim` is the assignment `isSimulationRunning = false` (line 86 on
  the success path, line 118 in the catch block);
- `finalWrite` is the terminal `updateDoc` call (lines 108-116 or
  120-124) carrying the authoritative network result. -/
inductive DocEvent where
  | simTick (st : ProcessingStage) (msg : String)
  | stopSim
  | finalWrite (u : DocumentFileUpdates)
deriving DecidableEq

/-- Recognizer for `finalWrite` events, used to state that a trace suffix
contains no further authoritative write. -/
def DocEvent.isFinalWrite : DocEvent → Bool
  | .finalWrite _ => true
  | _ => false

/-- State of one document's processing run: the cooperative cancellation
flag `isSimulationRunning` and the record's current contents. -/
structure SimState where
  isSimulationRunning : Bool
  doc : DocumentFile
deriving DecidableEq

/-- Effect of one event on one document's state.  A `simTick` writes its
scripted stage/message only when the flag is still set (the loop breaks
otherwise); `stopSim` clears the flag and touches nothing else;
`finalWrite` merges the terminal update into the record. -/
def docStep (s : SimState) (e : DocEvent) : SimState :=
  match e with
  | .simTick st msg =>
      if s.isSimulationRunning then ⟨true, applyUpdates s.doc (stageUpdate st msg)⟩ else s
  | .stopSim => ⟨false, s.doc⟩
  | .finalWrite u => ⟨s.isSimulationRunning, applyUpdates s.doc u⟩

/-- A whole interleaving of simulator ticks and the network completion. -/
def docRun (s : SimState) (evs : List DocEvent) : SimState :=
  evs.foldl docStep s

/-- State of the processing queue (useDocumentProcessor.ts lines 44-45
and 130-145): the shared pending list `processingQueue.current`, the
`isProcessing.current` flag, and the identifiers already handed to
`processDocument`, in order. -/
structure QueueState where
  pending : List String
  isProcessing : Bool
  processed : List String
deriving DecidableEq

/-- One invocation of `processQueue` (useDocumentProcessor.ts lines
130-132): if a drain is already in progress it returns at once having
changed nothing; otherwise it claims the flag and becomes the worker. -/
def processQueueInvoke (s : QueueState) : QueueState :=
  if s.isProcessing then s else ⟨s.pending, true, s.processed⟩

/-- Events of the queue system:
- `enqueue ids` is one `addFiles` call (lines 169-170): it appends the
  batch to the shared pending list and then invokes `processQueue`;
- `workStep` is the running worker reaching the top of its `while` loop
  (lines 134-144): it shifts the head of the pending list and processes
  it, or clears `isProcessing` and exits when the list is empty. -/
inductive QueueEvent where
  | enqueue (ids : List String)
  | workStep
deriving DecidableEq

/-- Effect of one queue event. -/
def queueStep (s : QueueState) (e : QueueEvent) : QueueState :=
  match e with
  | .enqueue ids => processQueueInvoke ⟨s.pending ++ ids, s.isProcessing, s.processed⟩
  | .workStep =>
      if s.isProcessing then
        match s.pending with
        | [] => ⟨[], false, s.processed⟩
        | i :: rest => ⟨rest, true, s.processed ++ [i]⟩
      else s

/-- A whole interleaving of `addFiles` calls and worker-loop iterations. -/
def queueRun (s : QueueState) (evs : List QueueEvent) : QueueState :=
  evs.foldl queueStep s

/-- The identifiers arriving over a queue trace, in arrival order. -/
def enqueuedIds : List QueueEvent → List String
  | [] => []
  | .enqueue ids :: evs => ids ++ enqueuedIds evs
  | .workStep :: evs => enqueuedIds evs

/-- The update written by the queue worker's last-resort catch
(useDocumentProcessor.ts line 140) when `processDocument` itself throws:
generic message, stage `error`, nothing else touched (in particular no
result). -/
def genericErrorUpdate : DocUpdate :=
  ⟨.error, "Error", none, none, some "Processing failed"⟩

/-- The worker-loop body around one item (useDocumentProcessor.ts lines
137-141): the item's per-document operation either returns a terminal
update (`some u`) or throws (`none`), in which case the catch substitutes
the generic error update. -/
def runQueueItem (r : Option DocUpdate) : DocUpdate :=
  match r with
  | some u => u
  | none => genericErrorUpdate

/-- The terminal update each drained item ends up with, given each item's
per-document operation result.  Total by construction: no exception
escapes the worker, and every item is visited. -/
def processQueueRun (ops : List (String × Option DocUpdate)) : List (String × DocUpdate) :=
  ops.map (fun p => (p.fst, runQueueItem p.snd))

/-- A concrete completed registry record used by several witnesses. -/
def docA : DocumentFile :=
  ⟨"idA", "a.pdf", 100, .complete, "✓ Extraction complete", 0,
   some ⟨some [[("a", "1")]], []⟩, some ⟨"Unknown", "standard", 95, 1⟩,
   none, some 1, some 2⟩

/-- A concrete queued registry record used by several witnesses. -/
def docB : DocumentFile :=
  ⟨"idB", "b.pdf", 200, .queued, "Waiting in queue...", 0,
   none, none, none, none, none⟩

/-- Claim C9: the operation `updateDoc id updates` keeps the registry's length and order,
merges the update into every position holding the targeted identifier,
leaves every position holding a different identifier untouched, and is
the identity when no record carries the identifier. -/
theorem updateDoc_frame (docs : List DocumentFile) (id : String) (u : DocumentFileUpdates) :
    (updateDoc docs id u).length = docs.length
  ∧ (∀ (i : ℕ) (d : DocumentFile), docs[i]? = some d → d.id ≠ id →
      (updateDoc docs id u)[i]? = some d)
  ∧ (∀ (i : ℕ) (d : DocumentFile), docs[i]? = some d → d.id = id →
      (updateDoc docs id u)[i]? = some (applyUpdates d u))
  ∧ (id ∉ docs.map DocumentFile.id → updateDoc docs id u = docs) := by
  refine ⟨List.length_map _ _, ?_, ?_, ?_⟩
  · intro i d hd hne
    rw [updateDoc, List.getElem?_map, hd]
    simp [hne]
  · intro i d hd heq
    rw [updateDoc, List.getElem?_map, hd]
    simp [heq]
  · intro hmem
    rw [updateDoc]
    have h : ∀ d ∈ docs, (if d.id = id then applyUpdates d u else d) = d := by
      intro d hd
      have hne : d.id ≠ id := fun he => hmem (he ▸ List.mem_map_of_mem DocumentFile.id hd)
      simp [hne]
    rw [List.map_congr_left h]
    exact List.map_id' docs

/-- Witness for C9 at a concrete two-document registry: position 0 holds
a different identifier and is untouched by an update aimed at `idB`. -/
theorem updateDoc_frame_witness :
    ([docA, docB][0]? = some docA) ∧ docA.id ≠ "idB" ∧
    (updateDoc [docA, docB] "idB" (stageUpdate ProcessingStage.error "Error"))[0]?
      = some docA :=
  ⟨rfl, by decide,
    (updateDoc_frame [docA, docB] "idB" (stageUpdate ProcessingStage.error "Error")).2.1
      0 docA rfl (by decide)⟩

/-- Claim C8: merge output exists only with at least two completed documents
carrying a result; when present it is the concatenation, in registry
order, of the claims lists of exactly those documents.  `completedDocs`
is characterized by membership and is a sublist (an order-preserving
selection) of the registry. -/
theorem merge_requires_two_completed :
    (∀ docs : List DocumentFile, (completedDocs docs).length < 2 → mergeJsonOutput docs = none)
  ∧ (∀ docs : List DocumentFile, 2 ≤ (completedDocs docs).length →
      mergeJsonOutput docs = some ((completedDocs docs).flatMap docClaims))
  ∧ (∀ (docs : List DocumentFile) (d : DocumentFile),
      d ∈ completedDocs docs
        ↔ d ∈ docs ∧ d.stage = ProcessingStage.complete ∧ d.result.isSome = true)
  ∧ (∀ docs : List DocumentFile, (completedDocs docs).Sublist docs) := by
  refine ⟨?_, ?_, ?_, ?_⟩
  · intro docs h
    simp [mergeJsonOutput, h]
  · intro docs h
    simp [mergeJsonOutput, getAllClaims, Nat.not_lt.mpr h]
  · intro docs d
    simp [completedDocs, List.mem_filter, and_assoc]
  · intro docs
    exact List.filter_sublist docs

/-- Witness for C8: a registry with a single completed document yields no
merge output. -/
theorem merge_requires_two_completed_witness :
    (completedDocs [docA]).length < 2 ∧ mergeJsonOutput [docA] = none :=
  ⟨by decide, (merge_requires_two_completed).1 [docA] (by decide)⟩

/-- Claim C4: every failure of the per-document operation — network failure,
non-2xx status, falsy success flag, malformed JSON — produces the
terminal `error` update carrying the server-provided text when available
(`"bad pdf"` for `success:false, error:"bad pdf"`) or the thrown
message/generic fallback, with no result and no metadata; and the queue
worker is total over its items, force-marking a throwing item with the
generic update and still processing everything before and after it. -/
theorem failure_paths_terminal_error :
    (∀ msg : String, processDocument (.networkFailure msg)
      = ⟨ProcessingStage.error, "Error", none, none, some msg⟩)
  ∧ (∀ st : String, processDocument (.httpFailure st)
      = ⟨ProcessingStage.error, "Error", none, none, some ("Server error: " ++ st)⟩)
  ∧ (∀ msg : String, processDocument (.jsonParseFailure msg)
      = ⟨ProcessingStage.error, "Error", none, none, some msg⟩)
  ∧ (∀ body : JsonBody, body.success = false →
      processDocument (.jsonOk body)
        = ⟨ProcessingStage.error, "Error", none, none,
           some (jsStrOr body.error "Unknown backend error")⟩)
  ∧ (processDocument (.jsonOk ⟨false, some "bad pdf", none⟩)).error = some "bad pdf"
  ∧ (∀ ops : List (String × Option DocUpdate), (processQueueRun ops).length = ops.length)
  ∧ (∀ (pre post : List (String × Option DocUpdate)) (id : String),
      processQueueRun (pre ++ (id, none) :: post)
        = processQueueRun pre ++ (id, genericErrorUpdate) :: processQueueRun post) := by
  refine ⟨fun msg => rfl, fun st => rfl, fun msg => rfl, ?_, by decide,
    fun ops => List.length_map _ _, ?_⟩
  · intro body h
    cases body with
    | mk success error data =>
        cases h
        rfl
  · intro pre post id
    simp [processQueueRun, runQueueItem]

/-- Witness for C4: the documented `success:false, error:"bad pdf"`
response ends in the terminal error update with message `bad pdf`. -/
theorem failure_paths_terminal_error_witness :
    ((⟨false, some "bad pdf", none⟩ : JsonBody)).success = false ∧
    processDocument (.jsonOk ⟨false, some "bad pdf", none⟩)
      = ⟨ProcessingStage.error, "Error", none, none, some "bad pdf"⟩ := by
  refine ⟨rfl, ?_⟩
  have h := failure_paths_terminal_error.2.2.2.1 ⟨false, some "bad pdf", none⟩ rfl
  simpa [jsStrOr] using h

/-- Claim C7, counterexample: `addFiles` derives identifiers from the wall clock
and a six-character random suffix; if `Math.random` yields the same
suffix twice in the same millisecond, two documents of one batch share an
identifier, so distinctness as claimed fails. -/
theorem addFiles_distinct_ids_cex :
    ¬ (((addFiles [(0, "q9zj4k"), (0, "q9zj4k")] [⟨"a.pdf", 10⟩, ⟨"b.pdf", 20⟩] []).map
        DocumentFile.id).Nodup) := by decide

/-- Claim C7, amended: provided the per-file (timestamp, random-suffix) seeds
generate pairwise distinct identifiers that also avoid every identifier
already in the registry, each file of the batch receives a record with a
distinct fresh identifier, stage `queued`, progress 0, and null result,
error, startedAt and completedAt. -/
theorem addFiles_fresh (seeds : List (Nat × String)) (files : List FileInput)
    (prev : List DocumentFile)
    (hlen : seeds.length = files.length)
    (hnodup : (seeds.map fun p => mkDocId p.fst p.snd).Nodup)
    (hfresh : ∀ p ∈ seeds, mkDocId p.fst p.snd ∉ prev.map DocumentFile.id) :
    addFiles seeds files prev
      = prev ++ (seeds.zip files).map (fun p => newDoc p.fst.fst p.fst.snd p.snd)
  ∧ (((seeds.zip files).map fun p => (newDoc p.fst.fst p.fst.snd p.snd).id).Nodup)
  ∧ (∀ d ∈ (seeds.zip files).map (fun p => newDoc p.fst.fst p.fst.snd p.snd),
      d.id ∉ prev.map DocumentFile.id
        ∧ d.stage = ProcessingStage.queued ∧ d.progress = 0 ∧ d.result = none
        ∧ d.error = none ∧ d.startedAt = none ∧ d.completedAt = none) := by
  refine ⟨rfl, ?_, ?_⟩
  · have hmap : ((seeds.zip files).map fun p => (newDoc p.fst.fst p.fst.snd p.snd).id)
        = ((seeds.zip files).map Prod.fst).map fun p => mkDocId p.fst p.snd := by
      rw [List.map_map]
      rfl
    rw [hmap, List.map_fst_zip seeds files (le_of_eq hlen)]
    exact hnodup
  · intro d hd
    rcases List.mem_map.mp hd with ⟨p, hp, hpd⟩
    have hpin : p.fst ∈ seeds := (List.of_mem_zip hp).1
    refine ⟨?_, ?_, ?_, ?_, ?_, ?_, ?_⟩ <;> rw [← hpd]
    · exact hfresh p.fst hpin
    all_goals rfl

/-- Witness for C7 at concrete distinct seeds over a registry holding one
prior document: the two fresh identifiers are mutually distinct. -/
theorem addFiles_fresh_witness :
    (([(5, "abcdef"), (5, "ghijkl")].map fun p => mkDocId p.fst p.snd).Nodup) ∧
    ((([(5, "abcdef"), (5, "ghijkl")].zip [(⟨"a.pdf", 10⟩ : FileInput), ⟨"b.pdf", 20⟩]).map
        fun p => (newDoc p.fst.fst p.fst.snd p.snd).id).Nodup) :=
  ⟨by decide,
    (addFiles_fresh [(5, "abcdef"), (5, "ghijkl")] [⟨"a.pdf", 10⟩, ⟨"b.pdf", 20⟩] [docA]
      rfl (by decide) (by decide)).2.1⟩

theorem confidenceValue_spec (o : Option ℚ) :
    confidenceValue o
      = match o with
        | some q => if q = 0 then 95 else Int.floor (q * 100 + 1 / 2)
        | none => 95 := by
  cases o with
  | none => rfl
  | some q =>
      by_cases hq : q = 0
      · simp [confidenceValue, hq]
      · have hnum : q.num ≠ 0 := Rat.num_ne_zero.mpr hq
        simp [confidenceValue, hq, hnum, jsRound100_eq_floor]

theorem claimsCountValue_spec (o : Option ℤ) (schema : ExtractionResult) (cs : List Claim)
    (h : schema.claims = some cs) :
    claimsCountValue o schema
      = .ok (match o with
             | some n => if n = 0 then (cs.length : ℤ) else n
             | none => (cs.length : ℤ)) := by
  cases o with
  | none => simp [claimsCountValue, schemaClaimsLength, h]
  | some n =>
      by_cases hn : n = 0
      · simp [claimsCountValue, schemaClaimsLength, h, hn]
      · simp [claimsCountValue, schemaClaimsLength, h, hn]

/-- Claim C3, amended: the metadata fallbacks follow JS truthiness, not mere
presence: `insurer` is the source-file field when present and non-empty,
else `"Unknown"`; `format` is the method field when present and
non-empty, else `"standard"`; `confidence` is `round(avg * 100)` when the
average-confidence field is present and non-zero, else 95; `claims_count`
is the summary count when present and non-zero, else the length of the
stored claims list (required present here; its absence is claim C10). -/
theorem metadata_fallbacks (body : JsonBody) (d : BackendData) (schema : ExtractionResult)
    (cs : List Claim)
    (hs : body.success = true) (hd : body.data = some d)
    (hschema : d.extracted_schema = some schema) (hclaims : schema.claims = some cs) :
    (processDocument (.jsonOk body)).metadata
      = some ⟨(match Option.bind d.extraction_metadata ExtractionMetadata.source_file with
               | some s => if s = "" then "Unknown" else s
               | none => "Unknown"),
              (match Option.bind d.extraction_metadata ExtractionMetadata.method with
               | some s => if s = "" then "standard" else s
               | none => "standard"),
              (match Option.bind d.summary Summary.avg_confidence with
               | some q => if q = 0 then 95 else Int.floor (q * 100 + 1 / 2)
               | none => 95),
              (match Option.bind d.summary Summary.claims_count with
               | some n => if n = 0 then (cs.length : ℤ) else n
               | none => (cs.length : ℤ))⟩ := by
  have hcc := claimsCountValue_spec (Option.bind d.summary Summary.claims_count) schema cs hclaims
  have hcv := confidenceValue_spec (Option.bind d.summary Summary.avg_confidence)
  rcases body with ⟨bs, berr, bdata⟩
  simp only at hs hd
  cases hs
  cases hd
  simp [processDocument, extractBody, hschema, computeMetadata, hcc, hcv, jsStrOr]

/-- A success response carrying `avg_confidence = 0`: present but falsy. -/
def avgZeroBody : JsonBody :=
  ⟨true, none, some ⟨some ⟨some [[("x", "1")], [("y", "2")]], []⟩, none,
    some ⟨some (mkRat 0 1), some 2⟩⟩⟩

/-- Claim C3, counterexample: for a response whose `avg_confidence` field is
present with value 0, the claim predicts confidence
`round(0 * 100) = 0`, but the code's truthiness ternary yields the 95
default, so the claim as stated is false. -/
theorem metadata_fallbacks_cex :
    (processDocument (.jsonOk avgZeroBody)).metadata
      = some ⟨"Unknown", "standard", 95, 2⟩
  ∧ jsRound100 (mkRat 0 1) = 0
  ∧ ¬ ((processDocument (.jsonOk avgZeroBody)).metadata
        = some ⟨"Unknown", "standard", jsRound100 (mkRat 0 1), 2⟩) := by decide

/-- A success response with every metadata source field present and
truthy except a zero `claims_count`. -/
def fullMetaBody : JsonBody :=
  ⟨true, none, some ⟨some ⟨some [[("claim_number", "381987")]], []⟩,
    some ⟨some "file.pdf", some "ai"⟩, some ⟨some (mkRat 9 10), some 0⟩⟩⟩

/-- Witness for C3 at a concrete response: source file and method are
taken verbatim, confidence is `round(0.9 * 100) = 90`, and the zero
(falsy) summary count falls back to the stored claims list length 1. -/
theorem metadata_fallbacks_witness :
    (processDocument (.jsonOk fullMetaBody)).metadata
      = some ⟨"file.pdf", "ai", Int.floor ((mkRat 9 10) * 100 + 1 / 2), 1⟩
  ∧ Int.floor ((mkRat 9 10) * 100 + 1 / 2) = 90 :=
  ⟨metadata_fallbacks fullMetaBody
      ⟨some ⟨some [[("claim_number", "381987")]], []⟩,
        some ⟨some "file.pdf", some "ai"⟩, some ⟨some (mkRat 9 10), some 0⟩⟩
      ⟨some [[("claim_number", "381987")]], []⟩ [[("claim_number", "381987")]]
      rfl rfl rfl rfl,
   by rw [← jsRound100_eq_floor]; decide⟩

/-- Claim C5: on a success response whose `extracted_schema` is present, and
whose metadata computation does not fault (a truthy summary count or a
present claims array), the raw schema object is stored verbatim as the
result and the stage is set to `complete`.  The documented concrete
scenario is the witness below. -/
theorem success_stores_schema_verbatim (body : JsonBody) (d : BackendData)
    (schema : ExtractionResult)
    (hs : body.success = true) (hd : body.data = some d)
    (hschema : d.extracted_schema = some schema)
    (hcc : jsTruthyInt (Option.bind d.summary Summary.claims_count) = true
         ∨ schema.claims.isSome = true) :
    (processDocument (.jsonOk body)).stage = ProcessingStage.complete
  ∧ (processDocument (.jsonOk body)).result = some schema := by
  obtain ⟨cc, hcc2⟩ :
      ∃ cc, claimsCountValue (Option.bind d.summary Summary.claims_count) schema = .ok cc := by
    rcases hb : Option.bind d.summary Summary.claims_count with _ | n
    · rcases hcc with hcc | hcc
      · rw [hb] at hcc
        simp [jsTruthyInt] at hcc
      · rcases Option.isSome_iff_exists.mp hcc with ⟨cs, hcs⟩
        exact ⟨(cs.length : ℤ), by simp [hb, claimsCountValue, schemaClaimsLength, hcs]⟩
    · by_cases hn : n = 0
      · rcases hcc with hcc | hcc
        · rw [hb] at hcc
          simp [jsTruthyInt, hn] at hcc
        · rcases Option.isSome_iff_exists.mp hcc with ⟨cs, hcs⟩
          exact ⟨(cs.length : ℤ),
            by simp [hb, claimsCountValue, hn, schemaClaimsLength, hcs]⟩
      · exact ⟨n, by simp [hb, claimsCountValue, hn]⟩
  have hm : computeMetadata d schema
      = .ok ⟨jsStrOr (Option.bind d.extraction_metadata ExtractionMetadata.source_file) "Unknown",
             jsStrOr (Option.bind d.extraction_metadata ExtractionMetadata.method) "standard",
             confidenceValue (Option.bind d.summary Summary.avg_confidence), cc⟩ := by
    rw [computeMetadata, hcc2]
  rcases body with ⟨bs, berr, bdata⟩
  simp only at hs hd
  cases hs
  cases hd
  constructor <;> simp [processDocument, extractBody, hschema, hm]

/-- The documented success scenario:
`success:true, extracted_schema.claims = [one claim 381987],
summary = claims_count 1, avg_confidence 0.9`. -/
def scenarioBody : JsonBody :=
  ⟨true, none, some ⟨some ⟨some [[("claim_number", "381987")]], []⟩, none,
    some ⟨some (mkRat 9 10), some 1⟩⟩⟩

/-- Witness for C5: the documented scenario ends with stage `complete`,
the schema stored verbatim, metadata confidence 90 and claims_count 1,
and a stored claims list of length 1. -/
theorem success_stores_schema_verbatim_witness :
    (processDocument (.jsonOk scenarioBody)).stage = ProcessingStage.complete
  ∧ (processDocument (.jsonOk scenarioBody)).result
      = some ⟨some [[("claim_number", "381987")]], []⟩
  ∧ (processDocument (.jsonOk scenarioBody)).metadata
      = some ⟨"Unknown", "standard", 90, 1⟩
  ∧ ((Option.bind (processDocument (.jsonOk scenarioBody)).result
        ExtractionResult.claims).getD []).length = 1 :=
  ⟨(success_stores_schema_verbatim scenarioBody
      ⟨some ⟨some [[("claim_number", "381987")]], []⟩, none,
        some ⟨some (mkRat 9 10), some 1⟩⟩
      ⟨some [[("claim_number", "381987")]], []⟩
      rfl rfl rfl (Or.inl (by decide))).1,
   (success_stores_schema_verbatim scenarioBody
      ⟨some ⟨some [[("claim_number", "381987")]], []⟩, none,
        some ⟨some (mkRat 9 10), some 1⟩⟩
      ⟨some [[("claim_number", "381987")]], []⟩
      rfl rfl rfl (Or.inl (by decide))).2,
   by decide, by decide⟩

/-- Claim C10: a success response whose present `extracted_schema` lacks a
claims array, with no truthy summary count, faults while reading
`schema.claims.length`; the catch block therefore terminates the document
in stage `error` (not `complete`) with the TypeError's message, even
though the backend reported success. -/
theorem success_without_claims_faults (body : JsonBody) (d : BackendData)
    (schema : ExtractionResult)
    (hs : body.success = true) (hd : body.data = some d)
    (hschema : d.extracted_schema = some schema)
    (hclaims : schema.claims = none)
    (hcc : jsTruthyInt (Option.bind d.summary Summary.claims_count) = false) :
    (processDocument (.jsonOk body)).stage = ProcessingStage.error
  ∧ (processDocument (.jsonOk body)).stage ≠ ProcessingStage.complete
  ∧ (processDocument (.jsonOk body)).error = some (typeErrorMessage "length") := by
  have herr : computeMetadata d schema = .error ⟨typeErrorMessage "length"⟩ := by
    rcases hb : Option.bind d.summary Summary.claims_count with _ | n
    · simp [computeMetadata, hb, claimsCountValue, schemaClaimsLength, hclaims]
    · rw [hb] at hcc
      simp [jsTruthyInt] at hcc
      simp [computeMetadata, hb, claimsCountValue, hcc, schemaClaimsLength, hclaims]
  rcases body with ⟨bs, berr, bdata⟩
  simp only at hs hd
  cases hs
  cases hd
  refine ⟨?_, ?_, ?_⟩ <;> simp [processDocument, extractBody, hschema, herr]

/-- A success response whose schema object has no claims array and whose
summary gives no usable count. -/
def noClaimsBody : JsonBody :=
  ⟨true, none, some ⟨some ⟨none, [("policy", "P-1")]⟩, none, some ⟨some (mkRat 1 2), none⟩⟩⟩

/-- Witness for C10: the concrete claims-free success response terminates
in stage `error`. -/
theorem success_without_claims_faults_witness :
    (processDocument (.jsonOk noClaimsBody)).stage = ProcessingStage.error
  ∧ (processDocument (.jsonOk noClaimsBody)).error
      = some (typeErrorMessage "length") :=
  ⟨(success_without_claims_faults noClaimsBody
      ⟨some ⟨none, [("policy", "P-1")]⟩, none, some ⟨some (mkRat 1 2), none⟩⟩
      ⟨none, [("policy", "P-1")]⟩ rfl rfl rfl rfl (by decide)).1,
   (success_without_claims_faults noClaimsBody
      ⟨some ⟨none, [("policy", "P-1")]⟩, none, some ⟨some (mkRat 1 2), none⟩⟩
      ⟨none, [("policy", "P-1")]⟩ rfl rfl rfl rfl (by decide)).2.2⟩

theorem docRun_append (s : SimState) (l1 l2 : List DocEvent) :
    docRun s (l1 ++ l2) = docRun (docRun s l1) l2 :=
  List.foldl_append docStep s l1 l2

theorem docStep_flag_false (s : SimState) (e : DocEvent)
    (h : s.isSimulationRunning = false) :
    (docStep s e).isSimulationRunning = false := by
  cases e with
  | simTick st msg => simp [docStep, h]
  | stopSim => rfl
  | finalWrite u => simpa [docStep] using h

theorem docRun_flag_false (s : SimState) (evs : List DocEvent)
    (h : s.isSimulationRunning = false) :
    (docRun s evs).isSimulationRunning = false := by
  induction evs generalizing s with
  | nil => exact h
  | cons e evs ih => exact ih _ (docStep_flag_false s e h)

theorem docRun_flag_false_of_stop (s : SimState) (pre : List DocEvent)
    (h : DocEvent.stopSim ∈ pre) :
    (docRun s pre).isSimulationRunning = false := by
  induction pre generalizing s with
  | nil => cases h
  | cons e evs ih =>
      rcases List.mem_cons.mp h with h1 | h2
      · rw [docRun, List.foldl_cons, ← h1]
        exact docRun_flag_false _ _ rfl
      · exact ih _ h2

theorem docRun_frozen (s : SimState) (evs : List DocEvent)
    (hflag : s.isSimulationRunning = false)
    (hevs : (evs.all fun e => !e.isFinalWrite) = true) :
    docRun s evs = s := by
  induction evs generalizing s with
  | nil => rfl
  | cons e evs ih =>
      rw [List.all_cons, Bool.and_eq_true] at hevs
      obtain ⟨he, hevs⟩ := hevs
      have hstep : docStep s e = s := by
        cases e with
        | simTick st msg => simp [docStep, hflag]
        | stopSim =>
            cases s with
            | mk flag doc =>
                simp only at hflag
                subst hflag
                rfl
        | finalWrite u => simp [DocEvent.isFinalWrite] at he
      rw [docRun, List.foldl_cons, hstep]
      exact ih s hflag hevs

/-- Claim C1: once the cancellation flag has been cleared (which both the
success and the failure path do before their terminal write) and the
authoritative final write has happened, the rest of the interleaving —
in particular every remaining simulator tick, each of which checks the
flag before writing — leaves the document's state exactly as the final
write left it: the record is never mutated again. -/
theorem final_write_is_last_mutation (s : SimState) (pre post : List DocEvent)
    (u : DocumentFileUpdates)
    (hstop : DocEvent.stopSim ∈ pre)
    (hpost : (post.all fun e => !e.isFinalWrite) = true) :
    docRun s (pre ++ DocEvent.finalWrite u :: post)
      = docRun s (pre ++ [DocEvent.finalWrite u]) := by
  rw [docRun_append, docRun_append]
  have h1 : (docRun s pre).isSimulationRunning = false :=
    docRun_flag_false_of_stop s pre hstop
  have h2 : (docStep (docRun s pre) (DocEvent.finalWrite u)).isSimulationRunning = false :=
    docStep_flag_false _ _ h1
  show docRun (docStep (docRun s pre) (DocEvent.finalWrite u)) post = _
  rw [docRun_frozen _ post h2 hpost]
  rfl

/-- Witness for C1 on a concrete interleaving: two late simulator ticks
arriving after the authoritative completion write change nothing. -/
theorem final_write_is_last_mutation_witness :
    (DocEvent.stopSim
        ∈ [DocEvent.simTick ProcessingStage.text_extraction "Extracting text from pages...",
           DocEvent.stopSim])
  ∧ (([DocEvent.simTick ProcessingStage.validation "Validating extraction...",
       DocEvent.simTick ProcessingStage.claim_extraction "late tick"].all
        fun e => !e.isFinalWrite) = true)
  ∧ docRun ⟨true, docB⟩
      ([DocEvent.simTick ProcessingStage.text_extraction "Extracting text from pages...",
        DocEvent.stopSim]
       ++ DocEvent.finalWrite (stageUpdate ProcessingStage.complete "✓ Extraction complete")
          :: [DocEvent.simTick ProcessingStage.validation "Validating extraction...",
              DocEvent.simTick ProcessingStage.claim_extraction "late tick"])
      = docRun ⟨true, docB⟩
          ([DocEvent.simTick ProcessingStage.text_extraction "Extracting text from pages...",
            DocEvent.stopSim]
           ++ [DocEvent.finalWrite (stageUpdate ProcessingStage.complete "✓ Extraction complete")]) :=
  ⟨by decide, by decide,
    final_write_is_last_mutation ⟨true, docB⟩
      [DocEvent.simTick ProcessingStage.text_extraction "Extracting text from pages...",
       DocEvent.stopSim]
      [DocEvent.simTick ProcessingStage.validation "Validating extraction...",
       DocEvent.simTick ProcessingStage.claim_extraction "late tick"]
      (stageUpdate ProcessingStage.complete "✓ Extraction complete")
      (by decide) (by decide)⟩

theorem queueRun_append (s : QueueState) (l1 l2 : List QueueEvent) :
    queueRun s (l1 ++ l2) = queueRun (queueRun s l1) l2 :=
  List.foldl_append queueStep s l1 l2

/-- Claim C2: the queue serializes work.  First conjunct: invoking the worker
while `isProcessing` is set returns immediately, changing nothing.
Second conjunct: an `addFiles` enqueue-plus-invoke never processes an
item itself.  Third conjunct: any single event hands at most one item to
the per-document operation.  Fourth conjunct: over every interleaving of
enqueues and worker iterations, the processed-so-far list extended by the
still-pending list equals the arrival order, so the already-running
worker drains items — including those appended during its drain — in
FIFO order. -/
theorem processQueue_serializes :
    (∀ s : QueueState, s.isProcessing = true → processQueueInvoke s = s)
  ∧ (∀ (s : QueueState) (ids : List String),
      (queueStep s (.enqueue ids)).processed = s.processed)
  ∧ (∀ (s : QueueState) (e : QueueEvent),
      (queueStep s e).processed.length ≤ s.processed.length + 1)
  ∧ (∀ (s : QueueState) (evs : List QueueEvent),
      (queueRun s evs).processed ++ (queueRun s evs).pending
        = s.processed ++ s.pending ++ enqueuedIds evs) := by
  refine ⟨?_, ?_, ?_, ?_⟩
  · intro s h
    simp [processQueueInvoke, h]
  · intro s ids
    by_cases h : s.isProcessing <;> simp [queueStep, processQueueInvoke, h]
  · intro s e
    cases e with
    | enqueue ids =>
        by_cases h : s.isProcessing <;>
          simp [queueStep, processQueueInvoke, h]
    | workStep =>
        by_cases h : s.isProcessing
        · rcases hp : s.pending with _ | ⟨i, rest⟩ <;>
            simp [queueStep, h, hp]
        · simp [queueStep, h]
  · intro s evs
    induction evs generalizing s with
    | nil => simp [queueRun, enqueuedIds]
    | cons e evs ih =>
        rw [queueRun, List.foldl_cons]
        have h2 := ih (queueStep s e)
        rw [queueRun] at h2
        rw [h2]
        cases e with
        | enqueue ids =>
            by_cases h : s.isProcessing <;>
              simp [queueStep, processQueueInvoke, h, enqueuedIds, List.append_assoc]
        | workStep =>
            by_cases h : s.isProcessing
            · rcases hp : s.pending with _ | ⟨i, rest⟩ <;>
                simp [queueStep, h, hp, enqueuedIds, List.append_assoc]
            · simp [queueStep, h, enqueuedIds]

/-- Witness for C2: a concrete state with the flag set is untouched by a
second invocation, and a concrete trace that enqueues two items, starts
draining, and receives a third mid-drain processes all three in arrival
order. -/
theorem processQueue_serializes_witness :
    ((⟨["b"], true, ["a"]⟩ : QueueState).isProcessing = true)
  ∧ processQueueInvoke ⟨["b"], true, ["a"]⟩ = ⟨["b"], true, ["a"]⟩
  ∧ (queueRun ⟨[], false, []⟩
        [QueueEvent.enqueue ["a", "b"], QueueEvent.workStep, QueueEvent.enqueue ["c"],
         QueueEvent.workStep, QueueEvent.workStep, QueueEvent.workStep]).processed
      ++ (queueRun ⟨[], false, []⟩
        [QueueEvent.enqueue ["a", "b"], QueueEvent.workStep, QueueEvent.enqueue ["c"],
         QueueEvent.workStep, QueueEvent.workStep, QueueEvent.workStep]).pending
      = ["a", "b", "c"] :=
  ⟨rfl, processQueue_serializes.1 ⟨["b"], true, ["a"]⟩ rfl,
    by
      rw [processQueue_serializes.2.2.2 ⟨[], false, []⟩
        [QueueEvent.enqueue ["a", "b"], QueueEvent.workStep, QueueEvent.enqueue ["c"],
         QueueEvent.workStep, QueueEvent.workStep, QueueEvent.workStep]]
      decide⟩

theorem jsSetDedup_mem (l : List String) (k : String) :
    ∀ seen, k ∈ jsSetDedup seen l ↔ k ∈ l ∧ k ∉ seen := by
  induction l with
  | nil =>
      intro seen
      simp [jsSetDedup]
  | cons x xs ih =>
      intro seen
      by_cases hx : x ∈ seen
      · rw [jsSetDedup, if_pos hx, ih]
        simp only [List.mem_cons]
        constructor
        · rintro ⟨hk, hks⟩
          exact ⟨Or.inr hk, hks⟩
        · rintro ⟨hk | hk, hks⟩
          · exact absurd (by rw [hk]; exact hx) hks
          · exact ⟨hk, hks⟩
      · rw [jsSetDedup, if_neg hx]
        simp only [List.mem_cons, ih, not_or]
        constructor
        · rintro (rfl | ⟨hk, hks⟩)
          · exact ⟨Or.inl rfl, hx⟩
          · exact ⟨Or.inr hk, hks.2⟩
        · rintro ⟨hk | hk, hks⟩
          · exact Or.inl hk
          · by_cases hkx : k = x
            · exact Or.inl hkx
            · exact Or.inr ⟨hk, hkx, hks⟩

theorem jsSetDedup_pairwise (l : List String) :
    ∀ seen, (jsSetDedup seen l).Pairwise
      (fun a b => l.indexOf a < l.indexOf b) := by
  induction l with
  | nil =>
      intro seen
      simp [jsSetDedup]
  | cons x xs ih =>
      intro seen
      by_cases hx : x ∈ seen
      · rw [jsSetDedup, if_pos hx]
        refine List.Pairwise.imp_of_mem ?_ (ih seen)
        intro a b ha hb hab
        have ha2 := (jsSetDedup_mem xs a seen).mp ha
        have hb2 := (jsSetDedup_mem xs b seen).mp hb
        have hax : a ≠ x := fun he => ha2.2 (by rw [he]; exact hx)
        have hbx : b ≠ x := fun he => hb2.2 (by rw [he]; exact hx)
        rw [List.indexOf_cons_ne xs (fun he => hax he.symm),
            List.indexOf_cons_ne xs (fun he => hbx he.symm)]
        exact Nat.succ_lt_succ hab
      · rw [jsSetDedup, if_neg hx]
        rw [List.pairwise_cons]
        constructor
        · intro b hb
          have hb2 := (jsSetDedup_mem xs b (x :: seen)).mp hb
          have hbx : b ≠ x := fun he => hb2.2 (by rw [he]; exact List.mem_cons_self x seen)
          rw [List.indexOf_cons_self, List.indexOf_cons_ne xs (fun he => hbx he.symm)]
          exact Nat.succ_pos _
        · refine List.Pairwise.imp_of_mem ?_ (ih (x :: seen))
          intro a b ha hb hab
          have ha2 := (jsSetDedup_mem xs a (x :: seen)).mp ha
          have hb2 := (jsSetDedup_mem xs b (x :: seen)).mp hb
          have hax : a ≠ x := fun he => ha2.2 (by rw [he]; exact List.mem_cons_self x seen)
          have hbx : b ≠ x := fun he => hb2.2 (by rw [he]; exact List.mem_cons_self x seen)
          rw [List.indexOf_cons_ne xs (fun he => hax he.symm),
              List.indexOf_cons_ne xs (fun he => hbx he.symm)]
          exact Nat.succ_lt_succ hab

/-- Claim C6: CSV export.  The header key list contains exactly the field names
occurring across all claims (conjunct 1), in strictly increasing order of
first occurrence (conjunct 2); a non-empty claims list renders as the
comma-joined header line followed by one row per claim (conjunct 3);
a field missing from a claim renders as an empty quoted cell
(conjunct 4); a present field is wrapped in double quotes around its
escaped value (conjunct 5), the escaping exactly doubling every embedded
double quote (conjunct 6); and the documented two-claim scenario yields
precisely the documented CSV text (conjunct 7). -/
theorem csv_export_format :
    (∀ (claims : List Claim) (k : String),
        k ∈ csvHeaders claims ↔ k ∈ claims.flatMap (fun c => c.map Prod.fst))
  ∧ (∀ claims : List Claim, (csvHeaders claims).Pairwise (fun a b =>
        (claims.flatMap (fun c => c.map Prod.fst)).indexOf a
          < (claims.flatMap (fun c => c.map Prod.fst)).indexOf b))
  ∧ (∀ claims : List Claim, claims ≠ [] →
        handleDownloadCsv claims
          = some (String.intercalate "\n"
              (String.intercalate "," (csvHeaders claims)
                :: claims.map (csvRow (csvHeaders claims)))))
  ∧ (∀ (c : Claim) (k : String), c.lookup k = none → csvField c k = "\"\"")
  ∧ (∀ (c : Claim) (k v : String), c.lookup k = some v →
        csvField c k = "\"" ++ escapeQuotes v ++ "\"")
  ∧ (∀ v : String, (escapeQuotes v).data.count '"' = 2 * v.data.count '"')
  ∧ handleDownloadCsv [[("a", "1")], [("b", "2")]]
      = some "a,b\n\"1\",\"\"\n\"\",\"2\"" := by
  refine ⟨?_, ?_, ?_, ?_, ?_, ?_, by decide⟩
  · intro claims k
    rw [csvHeaders, jsSetDedup_mem]
    simp
  · intro claims
    exact jsSetDedup_pairwise _ []
  · intro claims h
    simp [handleDownloadCsv, h]
  · intro c k h
    simp only [csvField, h, Option.getD_none]
    rfl
  · intro c k v h
    simp only [csvField, h, Option.getD_some]
  · intro v
    rw [escapeQuotes]
    induction v.data with
    | nil => rfl
    | cons c cs ih =>
        by_cases hc : c = '"'
        · subst hc
          simp only [List.flatMap_cons, List.count_append, List.count_cons, ih]
          simp only [Nat.mul_add]
          simp
          omega
        · simp only [List.flatMap_cons, List.count_append, List.count_cons, ih]
          simp only [Nat.mul_add]
          simp [List.count_cons, hc]

/-- Witness for C6: a claim lacking the `b` column renders an empty
quoted cell for it. -/
theorem csv_export_format_witness :
    (([("a", "1")] : Claim).lookup "b" = none)
  ∧ csvField [("a", "1")] "b" = "\"\"" :=
  ⟨by decide, csv_export_format.2.2.2.1 [("a", "1")] "b" (by decide)⟩

end Insurance
